import Mathlib

/-!
# ShootThemUp: the player character `ASTUBaseCharacter`

A shallow embedding of `Source/ShootThemUp/Private/Player/STUBaseCharacter.cpp`.

* `float` values are exact rationals (`ℚ`): comparisons and the arithmetic of the
  handlers are modelled without rounding, NaN or infinities.
* The character's own fields, and the engine state its methods read, are fields
  of the record `ASTUBaseCharacter`.
* A call into the engine whose effect lives outside the character (movement
  input, damage, animation, life span, controller state, delegate binding,
  weapon spawning, logging) is appended to the log `Calls`, in program order.
* Engine library functions that have no exact rational counterpart (`FMath::Acos`,
  `FMath::RadiansToDegrees`, `FVector::GetSafeNormal`, `FString::Printf`) are the
  fields of the parameter record `Engine`.
-/

namespace ShootThemUp

/-! ## Engine value types -/

/-- Engine type `FVector`: three `float` coordinates. -/
structure FVector where
  X : ℚ
  Y : ℚ
  Z : ℚ
deriving DecidableEq

/-- Engine type `FVector2D`: two `float` coordinates; used as a range `[X, Y]`. -/
structure FVector2D where
  X : ℚ
  Y : ℚ
deriving DecidableEq

/-- Modelled from the spec: the engine constant `FVector::ZeroVector`, absent
from the sources; the zero vector. -/
def FVector.ZeroVector : FVector := ⟨0, 0, 0⟩

/-- Modelled from the spec: the engine method `FVector::IsZero`, absent from
the sources; whether the vector is the zero vector, all three coordinates being
exactly zero. -/
def FVector.IsZero (V : FVector) : Bool :=
  decide (V.X = 0) && decide (V.Y = 0) && decide (V.Z = 0)

/-- Modelled from the spec: the engine function `FVector::DotProduct`, absent
from the sources; the dot product of two vectors. -/
def FVector.DotProduct (A B : FVector) : ℚ :=
  A.X * B.X + A.Y * B.Y + A.Z * B.Z

/-- Modelled from the spec: the engine function `FVector::CrossProduct`, absent
from the sources; the cross product of two vectors. -/
def FVector.CrossProduct (A B : FVector) : FVector :=
  ⟨A.Y * B.Z - A.Z * B.Y, A.Z * B.X - A.X * B.Z, A.X * B.Y - A.Y * B.X⟩

/-- Modelled from the spec: the engine function `FMath::Sign`, absent from the
sources; the sign of a number, `1`, `-1` or `0`. -/
def FMath.Sign (A : ℚ) : ℚ :=
  if 0 < A then 1 else if A < 0 then -1 else 0

/-- Modelled from the spec: the engine name constant `NAME_Spectating`, absent
from the sources; the controller state called spectating. -/
def NAME_Spectating : String := "Spectating"

/-- The member functions of the character that `BeginPlay` binds to delegates. -/
inductive Handler where
  | OnDeath
  | OnHealthChanged
  | OnGroundLanded
deriving DecidableEq

/-- A call from the character into the engine whose effect is outside the
character record. The arguments kept are the ones the program computes. -/
inductive EngineCall where
  /-- Call `UE_LOG(BaseCharacterLog, Display, TEXT(Format), ...)`. -/
  | UE_LOG (Format : String)
  /-- Call `AddMovementInput(WorldDirection, ScaleValue)`. -/
  | AddMovementInput (WorldDirection : FVector) (ScaleValue : ℚ)
  /-- Call `TakeDamage(DamageAmount, FDamageEvent(), nullptr, nullptr)`. -/
  | TakeDamage (DamageAmount : ℚ)
  /-- Call `PlayAnimMontage(Montage)`; `Montage` names the property passed. -/
  | PlayAnimMontage (Montage : String)
  /-- Call `GetCharacterMovement()->DisableMovement()`. -/
  | DisableMovement
  /-- Call `SetLifeSpan(InLifespan)`. -/
  | SetLifeSpan (InLifespan : ℚ)
  /-- Call `Controller->ChangeState(NewState)`. -/
  | ControllerChangeState (NewState : String)
  /-- Call `HealthComponent->OnDeath.AddUObject(this, h)`. -/
  | OnDeathAddUObject (h : Handler)
  /-- Call `HealthComponent->OnHealthChanged.AddUObject(this, h)`. -/
  | OnHealthChangedAddUObject (h : Handler)
  /-- Call `LandedDelegate.AddDynamic(this, h)`. -/
  | LandedDelegateAddDynamic (h : Handler)
  /-- Call `GetWorld()->SpawnActor<ASTUBaseWeapon>(WeaponClass)`. -/
  | SpawnActor
  /-- Call `Weapon->AttachToComponent(GetMesh(), AttachmentRules, Socket)`. -/
  | AttachToComponent (Socket : String)
  /-- Call `Super::BeginPlay()`. -/
  | SuperBeginPlay
deriving DecidableEq

/-- Engine library functions, absent from the sources, taken as parameters. -/
structure Engine where
  /-- Function `FMath::Acos`, in radians. -/
  Acos : ℚ → ℚ
  /-- Function `FMath::RadiansToDegrees`. -/
  RadiansToDegrees : ℚ → ℚ
  /-- Method `FVector::GetSafeNormal`. -/
  GetSafeNormal : FVector → FVector
  /-- Function `FString::Printf` with one `float` argument. -/
  Printf : String → ℚ → String

/-! ## The character -/

/-- State of an `ASTUBaseCharacter`: its own fields, the engine state its
methods read, and the log of the engine calls made so far. The components made
by the constructor (`HealthComponent`, `HealthTextComponent`, the character
movement component) are present, so the `check`s of `BeginPlay` pass. -/
structure ASTUBaseCharacter where
  /-- Field `WantsToRun`. -/
  WantsToRun : Bool
  /-- Field `IsMovingForward`. -/
  IsMovingForward : Bool
  /-- Property `LandedDamageVelocity`. -/
  LandedDamageVelocity : FVector2D
  /-- Property `LandedDamage`. -/
  LandedDamage : FVector2D
  /-- Value of `GetVelocity()`. -/
  Velocity : FVector
  /-- Value of `GetCharacterMovement()->Velocity`. -/
  MovementVelocity : FVector
  /-- Value of `GetActorForwardVector()`. -/
  ActorForwardVector : FVector
  /-- Value of `GetActorRightVector()`. -/
  ActorRightVector : FVector
  /-- Value of `HealthComponent->GetHealth()`. -/
  Health : ℚ
  /-- Text held by `HealthTextComponent`. -/
  HealthText : String
  /-- Whether the pointer `Controller` is non-null. -/
  Controller : Bool
  /-- Whether `GetWorld()` is non-null. -/
  World : Bool
  /-- Whether `SpawnActor<ASTUBaseWeapon>` returns a non-null weapon. -/
  WeaponSpawns : Bool
  /-- Engine calls made so far, oldest first. -/
  Calls : List EngineCall
deriving DecidableEq

/-- Appends one engine call to the log. -/
def ASTUBaseCharacter.call (c : ASTUBaseCharacter) (e : EngineCall) : ASTUBaseCharacter :=
  { c with Calls := c.Calls ++ [e] }

/-- Method `ASTUBaseCharacter::IsRunning` (const). -/
def ASTUBaseCharacter.IsRunning (c : ASTUBaseCharacter) : Bool :=
  c.WantsToRun && c.IsMovingForward && !c.Velocity.IsZero

/-- Method `ASTUBaseCharacter::MoveForward`. -/
def ASTUBaseCharacter.MoveForward (c : ASTUBaseCharacter) (Amount : ℚ) : ASTUBaseCharacter :=
  if Amount = 0 then c
  else
    ({ c with IsMovingForward := decide (Amount > 0) }).call
      (.AddMovementInput c.ActorForwardVector Amount)

/-- Method `ASTUBaseCharacter::MoveRight`. -/
def ASTUBaseCharacter.MoveRight (c : ASTUBaseCharacter) (Amount : ℚ) : ASTUBaseCharacter :=
  if Amount = 0 then c
  else c.call (.AddMovementInput c.ActorRightVector Amount)

/-- Method `ASTUBaseCharacter::OnStartRunning`. -/
def ASTUBaseCharacter.OnStartRunning (c : ASTUBaseCharacter) : ASTUBaseCharacter :=
  { c with WantsToRun := true }

/-- Method `ASTUBaseCharacter::OnStopRunning`. -/
def ASTUBaseCharacter.OnStopRunning (c : ASTUBaseCharacter) : ASTUBaseCharacter :=
  { c with WantsToRun := false }

/-- Method `ASTUBaseCharacter::OnDeath`. -/
def ASTUBaseCharacter.OnDeath (c : ASTUBaseCharacter) : ASTUBaseCharacter :=
  let c1 := c.call (.UE_LOG "Player %s is dead")
  let c2 := c1.call (.PlayAnimMontage "DeathAnimMontage")
  let c3 := c2.call .DisableMovement
  let c4 := c3.call (.SetLifeSpan 5)
  if c4.Controller then c4.call (.ControllerChangeState NAME_Spectating) else c4

/-- Method `ASTUBaseCharacter::OnHealthChanged`. -/
def ASTUBaseCharacter.OnHealthChanged (E : Engine) (c : ASTUBaseCharacter) (Health : ℚ) :
    ASTUBaseCharacter :=
  { c with HealthText := E.Printf "%.0f" Health }

/-- Modelled from the spec: `FMath::GetMappedRangeValueClamped` is an engine
library function, absent from the sources. The spec names it the fall-damage
mapping: the value, clamped to the input range, is mapped linearly onto the
output range. The fraction of the input range covered by the value is clamped
to `[0, 1]` and the output range is interpolated at it. An input range of
zero width is outside what the spec describes. -/
def FMath.GetMappedRangeValueClamped (InputRange OutputRange : FVector2D) (Value : ℚ) : ℚ :=
  let Pct := (Value - InputRange.X) / (InputRange.Y - InputRange.X)
  let ClampedPct := if Pct < 0 then 0 else if Pct < 1 then Pct else 1
  OutputRange.X + ClampedPct * (OutputRange.Y - OutputRange.X)

/-- Method `ASTUBaseCharacter::OnGroundLanded`. -/
def ASTUBaseCharacter.OnGroundLanded (c : ASTUBaseCharacter) : ASTUBaseCharacter :=
  let FallVelosityZ := -c.MovementVelocity.Z
  let c1 := c.call (.UE_LOG "On landed: %f")
  if FallVelosityZ < c.LandedDamageVelocity.X then c1
  else
    let FinalDamage :=
      FMath.GetMappedRangeValueClamped c.LandedDamageVelocity c.LandedDamage FallVelosityZ
    c1.call (.TakeDamage FinalDamage)

/-- Method `ASTUBaseCharacter::GetMovementDirection` (const). -/
def ASTUBaseCharacter.GetMovementDirection (E : Engine) (c : ASTUBaseCharacter) : ℚ :=
  if c.Velocity.IsZero then 0
  else
    let VelocityNormal := E.GetSafeNormal c.Velocity
    let AngleBetween := E.Acos (FVector.DotProduct c.ActorForwardVector VelocityNormal)
    let CrossProduct := FVector.CrossProduct c.ActorForwardVector VelocityNormal
    let Degrees := E.RadiansToDegrees AngleBetween
    if CrossProduct.IsZero then Degrees else Degrees * FMath.Sign CrossProduct.Z

/-- Method `ASTUBaseCharacter::SpawnWeapon`. -/
def ASTUBaseCharacter.SpawnWeapon (c : ASTUBaseCharacter) : ASTUBaseCharacter :=
  if !c.World then c
  else
    let c1 := c.call .SpawnActor
    if c1.WeaponSpawns then c1.call (.AttachToComponent "WeaponSocket") else c1

/-- Method `ASTUBaseCharacter::BeginPlay`. -/
def ASTUBaseCharacter.BeginPlay (E : Engine) (c : ASTUBaseCharacter) : ASTUBaseCharacter :=
  let c0 := c.call .SuperBeginPlay
  let c1 := c0.OnHealthChanged E c0.Health
  let c2 := c1.call (.OnDeathAddUObject .OnDeath)
  let c3 := c2.call (.OnHealthChangedAddUObject .OnHealthChanged)
  let c4 := c3.call (.LandedDelegateAddDynamic .OnGroundLanded)
  c4.SpawnWeapon

/-! ## Sequences of handler calls -/

/-- One call of an input handler bound in `SetupPlayerInputComponent`. -/
inductive InputEvent where
  | MoveForward (Amount : ℚ)
  | MoveRight (Amount : ℚ)
  | OnStartRunning
  | OnStopRunning
deriving DecidableEq

/-- One call of a handler of the character after `BeginPlay`: an input
handler, or one of the three delegate handlers. -/
inductive Event where
  | Input (e : InputEvent)
  | OnHealthChanged (Health : ℚ)
  | OnDeath
  | OnGroundLanded
deriving DecidableEq

/-- The character after one input-handler call. -/
def ASTUBaseCharacter.input (c : ASTUBaseCharacter) : InputEvent → ASTUBaseCharacter
  | .MoveForward Amount => c.MoveForward Amount
  | .MoveRight Amount => c.MoveRight Amount
  | .OnStartRunning => c.OnStartRunning
  | .OnStopRunning => c.OnStopRunning

/-- The character after a sequence of input-handler calls, oldest first. -/
def ASTUBaseCharacter.inputs (c : ASTUBaseCharacter) (es : List InputEvent) :
    ASTUBaseCharacter :=
  es.foldl ASTUBaseCharacter.input c

/-- The character after one handler call. -/
def ASTUBaseCharacter.step (E : Engine) (c : ASTUBaseCharacter) : Event → ASTUBaseCharacter
  | .Input e => c.input e
  | .OnHealthChanged Health => c.OnHealthChanged E Health
  | .OnDeath => c.OnDeath
  | .OnGroundLanded => c.OnGroundLanded

/-- The character after a sequence of handler calls, oldest first. -/
def ASTUBaseCharacter.steps (E : Engine) (c : ASTUBaseCharacter) (es : List Event) :
    ASTUBaseCharacter :=
  es.foldl (ASTUBaseCharacter.step E) c

/-! ## Vocabulary of the properties -/

/-- The engine calls made between the state `c` and a later state `d`. -/
def ASTUBaseCharacter.callsSince (c d : ASTUBaseCharacter) : List EngineCall :=
  d.Calls.drop c.Calls.length

/-- The amount of an engine call that is a `TakeDamage`. -/
def EngineCall.damageAmount : EngineCall → Option ℚ
  | .TakeDamage DamageAmount => some DamageAmount
  | _ => none

/-- The damage amounts that `OnGroundLanded` passes to `TakeDamage` for the
landing of `c`, one entry per call. -/
def ASTUBaseCharacter.landedDamages (c : ASTUBaseCharacter) : List ℚ :=
  (c.callsSince c.OnGroundLanded).filterMap EngineCall.damageAmount

/-- Whether an engine call goes through the pointer `Controller`. -/
def EngineCall.isControllerAccess : EngineCall → Bool
  | .ControllerChangeState _ => true
  | _ => false

/-- The fall speed of a landing: the negated vertical velocity of the movement
component. -/
def ASTUBaseCharacter.fallSpeed (c : ASTUBaseCharacter) : ℚ :=
  -c.MovementVelocity.Z

/-- The run command carried by an input event: `true` for `OnStartRunning`,
`false` for `OnStopRunning`. -/
def InputEvent.runCommand : InputEvent → Option Bool
  | .OnStartRunning => some true
  | .OnStopRunning => some false
  | _ => none

/-- The amount of a `MoveForward` call with a non-zero amount. -/
def InputEvent.forwardAmount : InputEvent → Option ℚ
  | .MoveForward Amount => if Amount = 0 then none else some Amount
  | _ => none

/-- The most recent run command of a sequence of input events. -/
def lastRunCommand (es : List InputEvent) : Option Bool :=
  (es.filterMap InputEvent.runCommand).getLast?

/-- The amount of the most recent `MoveForward` call with a non-zero amount. -/
def lastForwardAmount (es : List InputEvent) : Option ℚ :=
  (es.filterMap InputEvent.forwardAmount).getLast?

/-- The health reported by a handler call, if it is `OnHealthChanged`. -/
def Event.reportedHealth : Event → Option ℚ
  | .OnHealthChanged Health => some Health
  | _ => none

/-- The most recently reported health: the argument of the last
`OnHealthChanged` of the sequence, or `initial` when there is none. -/
def lastReportedHealth (initial : ℚ) (es : List Event) : ℚ :=
  ((es.filterMap Event.reportedHealth).getLast?).getD initial

/-- The normalised velocity, as `GetMovementDirection` computes it. -/
def ASTUBaseCharacter.velocityNormal (E : Engine) (c : ASTUBaseCharacter) : FVector :=
  E.GetSafeNormal c.Velocity

/-- The angle in degrees between the forward vector and the velocity: the
arccosine of the dot product of the forward vector with the normalised
velocity, converted to degrees. -/
def ASTUBaseCharacter.angleDegrees (E : Engine) (c : ASTUBaseCharacter) : ℚ :=
  E.RadiansToDegrees (E.Acos (FVector.DotProduct c.ActorForwardVector (c.velocityNormal E)))

/-- The Z component of the cross product of the forward vector with the
normalised velocity. -/
def ASTUBaseCharacter.crossZ (E : Engine) (c : ASTUBaseCharacter) : ℚ :=
  (FVector.CrossProduct c.ActorForwardVector (c.velocityNormal E)).Z

/-- The engine contract used for angles: an arccosine converted to degrees
lies in `[0, 180]`. -/
def Engine.AngleContract (E : Engine) : Prop :=
  ∀ x : ℚ, 0 ≤ E.RadiansToDegrees (E.Acos x) ∧ E.RadiansToDegrees (E.Acos x) ≤ 180

/-! ## Sample inputs -/

/-- A rational stand-in for the constant `PI`. -/
def samplePi : ℚ := 355 / 113

/-- An approximation of `1 / sqrt q` to eight decimal digits. -/
def sampleInvSqrt (q : ℚ) : ℚ :=
  (q.den * 10 ^ 8 : ℚ) / (Nat.sqrt (q.num.toNat * q.den * 10 ^ 16) : ℚ)

/-- Decimal text of a rational rounded to an integer, ties to even. -/
def sampleFormat0 (h : ℚ) : String :=
  let a := |h|
  let f := a.floor.toNat
  let n := if a - f < 1 / 2 then f else if 1 / 2 < a - f then f + 1
    else if f % 2 = 0 then f else f + 1
  (if h < 0 then "-" else "") ++ toString n

/-- A sample engine over the rationals. `Acos` clamps its argument to `[-1, 1]`
and follows the chord of the arccosine through its values at `-1`, `0` and `1`;
`GetSafeNormal` returns a vector of square length `1` unchanged, the zero vector
for a square length below `10⁻⁸`, and otherwise scales by `sampleInvSqrt`. -/
def sampleEngine : Engine where
  Acos := fun x => (1 - (if x < -1 then -1 else if x < 1 then x else 1)) * (samplePi / 2)
  RadiansToDegrees := fun r => r * (180 / samplePi)
  GetSafeNormal := fun V =>
    let SquareSum := V.X * V.X + V.Y * V.Y + V.Z * V.Z
    if SquareSum = 1 then V
    else if SquareSum < 1 / 10 ^ 8 then FVector.ZeroVector
    else ⟨V.X * sampleInvSqrt SquareSum, V.Y * sampleInvSqrt SquareSum,
      V.Z * sampleInvSqrt SquareSum⟩
  Printf := fun Format h => if Format = "%.0f" then sampleFormat0 h else Format

/-- A character standing still and facing along the X axis, with a fall-damage
configuration of speeds `[900, 1200]` and damages `[10, 100]`. -/
def sampleCharacter : ASTUBaseCharacter where
  WantsToRun := false
  IsMovingForward := false
  LandedDamageVelocity := ⟨900, 1200⟩
  LandedDamage := ⟨10, 100⟩
  Velocity := ⟨0, 0, 0⟩
  MovementVelocity := ⟨0, 0, 0⟩
  ActorForwardVector := ⟨1, 0, 0⟩
  ActorRightVector := ⟨0, 1, 0⟩
  Health := 100
  HealthText := ""
  Controller := true
  World := true
  WeaponSpawns := true
  Calls := []

/-- The sample character landing with the vertical velocity `Z`. -/
def landingAt (Z : ℚ) : ASTUBaseCharacter :=
  { sampleCharacter with MovementVelocity := ⟨0, 0, Z⟩ }

/-- A sample sequence of input-handler calls that ends running forward. -/
def sampleInputs : List InputEvent :=
  [.OnStopRunning, .MoveForward (-1), .OnStartRunning, .MoveForward 1, .MoveRight 1,
    .MoveForward 0]

/-- The sample character moving with the velocity `V`. -/
def movingAt (V : FVector) : ASTUBaseCharacter :=
  { sampleCharacter with Velocity := V }

/-! ## Helper lemmas -/

theorem callsSince_call (c : ASTUBaseCharacter) (l : List EngineCall)
    (d : ASTUBaseCharacter) (h : d.Calls = c.Calls ++ l) : c.callsSince d = l := by
  simp [ASTUBaseCharacter.callsSince, h]

theorem OnGroundLanded_calls (c : ASTUBaseCharacter) :
    c.callsSince c.OnGroundLanded =
      if c.fallSpeed < c.LandedDamageVelocity.X then [.UE_LOG "On landed: %f"]
      else [.UE_LOG "On landed: %f",
        .TakeDamage (FMath.GetMappedRangeValueClamped c.LandedDamageVelocity c.LandedDamage
          c.fallSpeed)] := by
  apply callsSince_call
  unfold ASTUBaseCharacter.OnGroundLanded ASTUBaseCharacter.fallSpeed
  by_cases h : -c.MovementVelocity.Z < c.LandedDamageVelocity.X <;>
    simp [h, ASTUBaseCharacter.call]

/-! ## Landing damage -/

/-- C1: on a landing with fall speed strictly below `LandedDamageVelocity.X`,
`OnGroundLanded` makes no `TakeDamage` call and leaves every field of the
character, the health among them, as it was; with fall speed at or above
`LandedDamageVelocity.X` it makes exactly one `TakeDamage` call. -/
theorem OnGroundLanded_damage_threshold (c : ASTUBaseCharacter) :
    (c.fallSpeed < c.LandedDamageVelocity.X →
        c.landedDamages = [] ∧
        c.OnGroundLanded = { c with Calls := c.Calls ++ [.UE_LOG "On landed: %f"] }) ∧
    (c.LandedDamageVelocity.X ≤ c.fallSpeed → c.landedDamages.length = 1) := by
  constructor
  · intro h
    constructor
    · simp [ASTUBaseCharacter.landedDamages, OnGroundLanded_calls, h,
        EngineCall.damageAmount]
    · have h' : -c.MovementVelocity.Z < c.LandedDamageVelocity.X := h
      simp [ASTUBaseCharacter.OnGroundLanded, h', ASTUBaseCharacter.call]
  · intro h
    simp [ASTUBaseCharacter.landedDamages, OnGroundLanded_calls, not_lt.mpr h,
      EngineCall.damageAmount]

/-- Witness of C1: a landing at fall speed `100` below the threshold `900`, and
one at fall speed `1000` above it. -/
theorem OnGroundLanded_damage_threshold_witness :
    (landingAt (-100)).landedDamages = [] ∧ (landingAt (-1000)).landedDamages.length = 1 :=
  ⟨((OnGroundLanded_damage_threshold (landingAt (-100))).1
      (by norm_num [landingAt, sampleCharacter, ASTUBaseCharacter.fallSpeed])).1,
    (OnGroundLanded_damage_threshold (landingAt (-1000))).2
      (by norm_num [landingAt, sampleCharacter, ASTUBaseCharacter.fallSpeed])⟩

/-! ## Running -/

theorem FVector.IsZero_iff (V : FVector) : V.IsZero = true ↔ V = FVector.ZeroVector := by
  cases V
  simp [FVector.IsZero, FVector.ZeroVector, and_assoc]

/-- C3: `IsRunning` returns true exactly when `WantsToRun` is set,
`IsMovingForward` is set and the velocity is not the zero vector. It is a const
method, embedded as a function of the state that returns only the Boolean. -/
theorem IsRunning_iff (c : ASTUBaseCharacter) :
    c.IsRunning = true ↔
      (c.WantsToRun = true ∧ c.IsMovingForward = true ∧ c.Velocity ≠ FVector.ZeroVector) := by
  have hz : c.Velocity ≠ FVector.ZeroVector ↔ c.Velocity.IsZero = false := by
    rw [Ne, ← FVector.IsZero_iff, Bool.not_eq_true]
  rw [hz]
  simp [ASTUBaseCharacter.IsRunning, and_assoc]

/-! ## Movement input -/

/-- C8: `MoveForward` with amount zero changes nothing; with a non-zero amount
it sets `IsMovingForward` to `Amount > 0`, adds one movement input along the
forward vector scaled by the amount, and changes nothing else; it never changes
`WantsToRun`. `MoveRight` never changes `IsMovingForward` or `WantsToRun`,
changes nothing for amount zero, and otherwise only adds one movement input
along the right vector. -/
theorem MoveForward_MoveRight_frame (c : ASTUBaseCharacter) (Amount : ℚ) :
    (Amount = 0 → c.MoveForward Amount = c) ∧
    (Amount ≠ 0 → c.MoveForward Amount =
      { c with
        IsMovingForward := decide (0 < Amount)
        Calls := c.Calls ++ [.AddMovementInput c.ActorForwardVector Amount] }) ∧
    (c.MoveForward Amount).WantsToRun = c.WantsToRun ∧
    (c.MoveRight Amount).IsMovingForward = c.IsMovingForward ∧
    (c.MoveRight Amount).WantsToRun = c.WantsToRun ∧
    (Amount = 0 → c.MoveRight Amount = c) ∧
    (Amount ≠ 0 → c.MoveRight Amount =
      { c with Calls := c.Calls ++ [.AddMovementInput c.ActorRightVector Amount] }) := by
  by_cases h : Amount = 0 <;>
    simp [ASTUBaseCharacter.MoveForward, ASTUBaseCharacter.MoveRight,
      ASTUBaseCharacter.call, h]

/-- Witness of C8: the sample character with the amounts `0` and `-2`. -/
theorem MoveForward_MoveRight_frame_witness :
    sampleCharacter.MoveForward 0 = sampleCharacter ∧
    (sampleCharacter.MoveForward (-2)).IsMovingForward = false ∧
    (sampleCharacter.MoveForward (-2)).Calls = [.AddMovementInput ⟨1, 0, 0⟩ (-2)] ∧
    (sampleCharacter.MoveRight (-2)).Calls = [.AddMovementInput ⟨0, 1, 0⟩ (-2)] := by
  refine ⟨(MoveForward_MoveRight_frame sampleCharacter 0).1 rfl, ?_, ?_, ?_⟩
  · rw [(MoveForward_MoveRight_frame sampleCharacter (-2)).2.1 (by norm_num)]
    norm_num
  · rw [(MoveForward_MoveRight_frame sampleCharacter (-2)).2.1 (by norm_num)]
    simp [sampleCharacter]
  · rw [(MoveForward_MoveRight_frame sampleCharacter (-2)).2.2.2.2.2.2 (by norm_num)]
    simp [sampleCharacter]

/-! ## Death -/

theorem OnDeath_calls (c : ASTUBaseCharacter) :
    c.OnDeath = { c with Calls := c.Calls ++
      ([.UE_LOG "Player %s is dead", .PlayAnimMontage "DeathAnimMontage", .DisableMovement,
        .SetLifeSpan 5] ++
        if c.Controller then [.ControllerChangeState NAME_Spectating] else []) } := by
  cases hC : c.Controller <;>
    simp [ASTUBaseCharacter.OnDeath, ASTUBaseCharacter.call, hC]

/-- C6: whether or not a controller is present, `OnDeath` plays the death
montage, disables movement and sets the life span to 5 seconds, and changes
nothing of the character but the log of engine calls; it changes the
controller state to spectating exactly when `Controller` is non-null, and with
a null `Controller` none of its engine calls goes through the controller. -/
theorem OnDeath_effects (c : ASTUBaseCharacter) :
    EngineCall.PlayAnimMontage "DeathAnimMontage" ∈ c.callsSince c.OnDeath ∧
    EngineCall.DisableMovement ∈ c.callsSince c.OnDeath ∧
    EngineCall.SetLifeSpan 5 ∈ c.callsSince c.OnDeath ∧
    (EngineCall.ControllerChangeState NAME_Spectating ∈ c.callsSince c.OnDeath ↔
      c.Controller = true) ∧
    (c.Controller = false → ∀ e ∈ c.callsSince c.OnDeath, e.isControllerAccess = false) ∧
    c.OnDeath = { c with Calls := c.OnDeath.Calls } := by
  have hcalls := callsSince_call c _ c.OnDeath (by rw [OnDeath_calls])
  rw [hcalls]
  cases hC : c.Controller <;>
    simp [EngineCall.isControllerAccess, ASTUBaseCharacter.OnDeath, ASTUBaseCharacter.call, hC]

/-! ## Health display -/

theorem SpawnWeapon_HealthText (c : ASTUBaseCharacter) :
    c.SpawnWeapon.HealthText = c.HealthText := by
  unfold ASTUBaseCharacter.SpawnWeapon
  cases c.World <;> cases hS : c.WeaponSpawns <;> simp [ASTUBaseCharacter.call, hS]

theorem step_HealthText (E : Engine) (c : ASTUBaseCharacter) (e : Event) :
    (c.step E e).HealthText =
      match e.reportedHealth with
      | some Health => E.Printf "%.0f" Health
      | none => c.HealthText := by
  cases e with
  | Input i =>
    cases i with
    | MoveForward a =>
      by_cases h : a = 0 <;>
        simp [ASTUBaseCharacter.step, ASTUBaseCharacter.input, ASTUBaseCharacter.MoveForward,
          ASTUBaseCharacter.call, Event.reportedHealth, h]
    | MoveRight a =>
      by_cases h : a = 0 <;>
        simp [ASTUBaseCharacter.step, ASTUBaseCharacter.input, ASTUBaseCharacter.MoveRight,
          ASTUBaseCharacter.call, Event.reportedHealth, h]
    | OnStartRunning => rfl
    | OnStopRunning => rfl
  | OnHealthChanged h => rfl
  | OnDeath =>
    simp only [ASTUBaseCharacter.step, Event.reportedHealth]
    rw [OnDeath_calls]
  | OnGroundLanded =>
    simp only [ASTUBaseCharacter.step, Event.reportedHealth,
      ASTUBaseCharacter.OnGroundLanded]
    split <;> rfl

theorem steps_HealthText (E : Engine) (es : List Event) (c : ASTUBaseCharacter) (initial : ℚ)
    (h : c.HealthText = E.Printf "%.0f" initial) :
    (c.steps E es).HealthText = E.Printf "%.0f" (lastReportedHealth initial es) := by
  induction es using List.reverseRecOn with
  | nil => simpa [ASTUBaseCharacter.steps, lastReportedHealth] using h
  | append_singleton es e ih =>
    have hs : c.steps E (es ++ [e]) = (c.steps E es).step E e := by
      simp [ASTUBaseCharacter.steps]
    rw [hs, step_HealthText]
    cases hr : e.reportedHealth with
    | none =>
      simpa [lastReportedHealth, List.filterMap_append, hr] using ih
    | some Health =>
      simp [lastReportedHealth, List.filterMap_append, hr]

/-- C7: immediately after `BeginPlay` the health text is the `"%.0f"` formatting
of the health component's current health; after any sequence of later handler
calls it is the `"%.0f"` formatting of the most recently reported health (the
argument of the last `OnHealthChanged`, or the health read by `BeginPlay` when
there was none); and `OnHealthChanged(h)` sets the text to the formatting of `h`
and changes nothing else. -/
theorem health_text_invariant (E : Engine) (c : ASTUBaseCharacter) (es : List Event) (h : ℚ) :
    (c.BeginPlay E).HealthText = E.Printf "%.0f" c.Health ∧
    ((c.BeginPlay E).steps E es).HealthText =
      E.Printf "%.0f" (lastReportedHealth c.Health es) ∧
    c.OnHealthChanged E h = { c with HealthText := E.Printf "%.0f" h } := by
  have h0 : (c.BeginPlay E).HealthText = E.Printf "%.0f" c.Health := by
    unfold ASTUBaseCharacter.BeginPlay
    simp only [SpawnWeapon_HealthText]
    rfl
  exact ⟨h0, steps_HealthText E es _ _ h0, rfl⟩

/-! ## Running after a sequence of inputs -/

theorem inputs_concat (c : ASTUBaseCharacter) (es : List InputEvent) (e : InputEvent) :
    c.inputs (es ++ [e]) = (c.inputs es).input e := by
  simp [ASTUBaseCharacter.inputs]

theorem MoveForward_WantsToRun (c : ASTUBaseCharacter) (a : ℚ) :
    (c.MoveForward a).WantsToRun = c.WantsToRun := by
  by_cases h : a = 0 <;> simp [ASTUBaseCharacter.MoveForward, ASTUBaseCharacter.call, h]

theorem MoveRight_flags (c : ASTUBaseCharacter) (a : ℚ) :
    (c.MoveRight a).WantsToRun = c.WantsToRun ∧
    (c.MoveRight a).IsMovingForward = c.IsMovingForward := by
  by_cases h : a = 0 <;> simp [ASTUBaseCharacter.MoveRight, ASTUBaseCharacter.call, h]

theorem inputs_WantsToRun (c : ASTUBaseCharacter) (es : List InputEvent) :
    (c.inputs es).WantsToRun = (lastRunCommand es).getD c.WantsToRun := by
  induction es using List.reverseRecOn with
  | nil => simp [ASTUBaseCharacter.inputs, lastRunCommand]
  | append_singleton es e ih =>
    rw [inputs_concat]
    cases e with
    | MoveForward a =>
      have : ((c.inputs es).MoveForward a).WantsToRun = (c.inputs es).WantsToRun :=
        MoveForward_WantsToRun _ a
      simpa [ASTUBaseCharacter.input, this, lastRunCommand, List.filterMap_append,
        InputEvent.runCommand] using ih
    | MoveRight a =>
      have : ((c.inputs es).MoveRight a).WantsToRun = (c.inputs es).WantsToRun :=
        (MoveRight_flags _ a).1
      simpa [ASTUBaseCharacter.input, this, lastRunCommand, List.filterMap_append,
        InputEvent.runCommand] using ih
    | OnStartRunning =>
      simp [ASTUBaseCharacter.input, ASTUBaseCharacter.OnStartRunning, lastRunCommand,
        List.filterMap_append, InputEvent.runCommand]
    | OnStopRunning =>
      simp [ASTUBaseCharacter.input, ASTUBaseCharacter.OnStopRunning, lastRunCommand,
        List.filterMap_append, InputEvent.runCommand]

theorem inputs_IsMovingForward (c : ASTUBaseCharacter) (es : List InputEvent) :
    (c.inputs es).IsMovingForward =
      ((lastForwardAmount es).map fun a => decide (0 < a)).getD c.IsMovingForward := by
  induction es using List.reverseRecOn with
  | nil => simp [ASTUBaseCharacter.inputs, lastForwardAmount]
  | append_singleton es e ih =>
    rw [inputs_concat]
    cases e with
    | MoveForward a =>
      by_cases h : a = 0
      · simpa [ASTUBaseCharacter.input, ASTUBaseCharacter.MoveForward, h, lastForwardAmount,
          List.filterMap_append, InputEvent.forwardAmount] using ih
      · simp [ASTUBaseCharacter.input, ASTUBaseCharacter.MoveForward, ASTUBaseCharacter.call,
          h, lastForwardAmount, List.filterMap_append, InputEvent.forwardAmount]
    | MoveRight a =>
      have : ((c.inputs es).MoveRight a).IsMovingForward = (c.inputs es).IsMovingForward :=
        (MoveRight_flags _ a).2
      simpa [ASTUBaseCharacter.input, this, lastForwardAmount, List.filterMap_append,
        InputEvent.forwardAmount] using ih
    | OnStartRunning =>
      simpa [ASTUBaseCharacter.input, ASTUBaseCharacter.OnStartRunning, lastForwardAmount,
        List.filterMap_append, InputEvent.forwardAmount] using ih
    | OnStopRunning =>
      simpa [ASTUBaseCharacter.input, ASTUBaseCharacter.OnStopRunning, lastForwardAmount,
        List.filterMap_append, InputEvent.forwardAmount] using ih

/-- C9: for a character whose `WantsToRun` and `IsMovingForward` are initially
false, after any sequence of input-handler calls and whatever the velocity then
is, `IsRunning` can be true only if the most recent run command was
`OnStartRunning` and the most recent `MoveForward` with a non-zero amount had a
positive amount; `IsRunning` is false right after `OnStopRunning` and right
after `MoveForward` with a negative amount. -/
theorem IsRunning_after_inputs (c : ASTUBaseCharacter) (es : List InputEvent) (v : FVector)
    (hW : c.WantsToRun = false) (hF : c.IsMovingForward = false) :
    (({ c.inputs es with Velocity := v }).IsRunning = true →
      lastRunCommand es = some true ∧ ∃ a, lastForwardAmount es = some a ∧ 0 < a) ∧
    ({ (c.inputs es).OnStopRunning with Velocity := v }).IsRunning = false ∧
    (∀ a, a < 0 → ({ (c.inputs es).MoveForward a with Velocity := v }).IsRunning = false) := by
  refine ⟨?_, ?_, ?_⟩
  · intro h
    have hrun : (c.inputs es).WantsToRun = true ∧ (c.inputs es).IsMovingForward = true := by
      simp only [ASTUBaseCharacter.IsRunning, Bool.and_eq_true] at h
      exact h.1
    rw [inputs_WantsToRun, inputs_IsMovingForward, hW, hF] at hrun
    obtain ⟨h1, h2⟩ := hrun
    constructor
    · cases hl : lastRunCommand es with
      | none => simp [hl] at h1
      | some b => simpa [hl] using h1
    · cases hl : lastForwardAmount es with
      | none => simp [hl] at h2
      | some a => exact ⟨a, rfl, by simpa [hl] using h2⟩
  · simp [ASTUBaseCharacter.IsRunning, ASTUBaseCharacter.OnStopRunning]
  · intro a ha
    have h0 : a ≠ 0 := ne_of_lt ha
    have hn : ¬ 0 < a := not_lt.mpr (le_of_lt ha)
    simp [ASTUBaseCharacter.IsRunning, ASTUBaseCharacter.MoveForward, ASTUBaseCharacter.call,
      h0, hn]

/-- Witness of C9: the sample character after `sampleInputs`, moving along X. -/
theorem IsRunning_after_inputs_witness :
    sampleCharacter.WantsToRun = false ∧ sampleCharacter.IsMovingForward = false ∧
    ({ sampleCharacter.inputs sampleInputs with Velocity := ⟨1, 0, 0⟩ }).IsRunning = true ∧
    lastRunCommand sampleInputs = some true ∧
    ∃ a, lastForwardAmount sampleInputs = some a ∧ 0 < a := by
  have hrun : ({ sampleCharacter.inputs sampleInputs with
      Velocity := ⟨1, 0, 0⟩ }).IsRunning = true := by
    simp [sampleInputs, ASTUBaseCharacter.inputs, ASTUBaseCharacter.input,
      ASTUBaseCharacter.MoveForward, ASTUBaseCharacter.MoveRight,
      ASTUBaseCharacter.OnStartRunning, ASTUBaseCharacter.OnStopRunning,
      ASTUBaseCharacter.call, ASTUBaseCharacter.IsRunning, FVector.IsZero]
  exact ⟨rfl, rfl, hrun,
    (IsRunning_after_inputs sampleCharacter sampleInputs ⟨1, 0, 0⟩ rfl rfl).1 hrun⟩

/-! ## The fall-damage mapping -/

theorem GetMappedRangeValueClamped_eq (I O : FVector2D) (v : ℚ) :
    FMath.GetMappedRangeValueClamped I O v =
      O.X + max 0 (min 1 ((v - I.X) / (I.Y - I.X))) * (O.Y - O.X) := by
  unfold FMath.GetMappedRangeValueClamped
  simp only
  split_ifs with h0 h1
  · rw [min_eq_right (le_of_lt (lt_trans h0 one_pos)), max_eq_left (le_of_lt h0)]
  · rw [min_eq_right (le_of_lt h1), max_eq_right (not_lt.mp h0)]
  · rw [min_eq_left (not_lt.mp h1), max_eq_right zero_le_one]

theorem rangePct_nonneg (I : FVector2D) (v : ℚ) (hR : I.X < I.Y) (hv : I.X ≤ v) :
    0 ≤ (v - I.X) / (I.Y - I.X) :=
  div_nonneg (sub_nonneg.mpr hv) (le_of_lt (sub_pos.mpr hR))

theorem GetMappedRangeValueClamped_mono (I O : FVector2D) (v w : ℚ) (hR : I.X < I.Y)
    (hO : O.X ≤ O.Y) (hvw : v ≤ w) :
    FMath.GetMappedRangeValueClamped I O v ≤ FMath.GetMappedRangeValueClamped I O w := by
  rw [GetMappedRangeValueClamped_eq, GetMappedRangeValueClamped_eq]
  have hpct : (v - I.X) / (I.Y - I.X) ≤ (w - I.X) / (I.Y - I.X) :=
    div_le_div_of_nonneg_right (sub_le_sub_right hvw _) (le_of_lt (sub_pos.mpr hR))
  have hclamp : max 0 (min 1 ((v - I.X) / (I.Y - I.X))) ≤
      max 0 (min 1 ((w - I.X) / (I.Y - I.X))) :=
    max_le_max le_rfl (min_le_min le_rfl hpct)
  have := mul_le_mul_of_nonneg_right hclamp (sub_nonneg.mpr hO)
  linarith

theorem landedDamages_of_le (c : ASTUBaseCharacter)
    (hv : c.LandedDamageVelocity.X ≤ c.fallSpeed) :
    c.landedDamages =
      [FMath.GetMappedRangeValueClamped c.LandedDamageVelocity c.LandedDamage c.fallSpeed] := by
  simp [ASTUBaseCharacter.landedDamages, OnGroundLanded_calls, not_lt.mpr hv,
    EngineCall.damageAmount]

/-- C2: with `LandedDamageVelocity.X < LandedDamageVelocity.Y` and a fall speed
`v` at or above `LandedDamageVelocity.X`, the one damage amount `OnGroundLanded`
passes to `TakeDamage` is `LandedDamage.X + t * (LandedDamage.Y - LandedDamage.X)`
with `t = min 1 ((v - LandedDamageVelocity.X) / (LandedDamageVelocity.Y -
LandedDamageVelocity.X))`; it is `LandedDamage.X` at `v = LandedDamageVelocity.X`,
`LandedDamage.Y` for `v ≥ LandedDamageVelocity.Y`, and it lies between
`LandedDamage.X` and `LandedDamage.Y`. -/
theorem OnGroundLanded_damage_mapping (c : ASTUBaseCharacter)
    (hR : c.LandedDamageVelocity.X < c.LandedDamageVelocity.Y)
    (hv : c.LandedDamageVelocity.X ≤ c.fallSpeed) :
    c.landedDamages =
      [c.LandedDamage.X +
        min 1 ((c.fallSpeed - c.LandedDamageVelocity.X) /
          (c.LandedDamageVelocity.Y - c.LandedDamageVelocity.X)) *
        (c.LandedDamage.Y - c.LandedDamage.X)] ∧
    (c.fallSpeed = c.LandedDamageVelocity.X → c.landedDamages = [c.LandedDamage.X]) ∧
    (c.LandedDamageVelocity.Y ≤ c.fallSpeed → c.landedDamages = [c.LandedDamage.Y]) ∧
    ∀ d ∈ c.landedDamages,
      min c.LandedDamage.X c.LandedDamage.Y ≤ d ∧ d ≤ max c.LandedDamage.X c.LandedDamage.Y := by
  have hpos : 0 < c.LandedDamageVelocity.Y - c.LandedDamageVelocity.X := sub_pos.mpr hR
  have hpct := rangePct_nonneg c.LandedDamageVelocity c.fallSpeed hR hv
  have hmin : 0 ≤ min 1 ((c.fallSpeed - c.LandedDamageVelocity.X) /
      (c.LandedDamageVelocity.Y - c.LandedDamageVelocity.X)) := le_min zero_le_one hpct
  have hmin1 : min 1 ((c.fallSpeed - c.LandedDamageVelocity.X) /
      (c.LandedDamageVelocity.Y - c.LandedDamageVelocity.X)) ≤ 1 := min_le_left _ _
  have hd := landedDamages_of_le c hv
  rw [GetMappedRangeValueClamped_eq, max_eq_right hmin] at hd
  refine ⟨hd, ?_, ?_, ?_⟩
  · intro h
    rw [hd, h]
    simp
  · intro h
    have h1 : 1 ≤ (c.fallSpeed - c.LandedDamageVelocity.X) /
        (c.LandedDamageVelocity.Y - c.LandedDamageVelocity.X) := by
      rw [le_div_iff₀ hpos]
      linarith
    rw [hd, min_eq_left h1]
    simp
  · intro d hmem
    rw [hd, List.mem_singleton] at hmem
    subst hmem
    generalize min 1 ((c.fallSpeed - c.LandedDamageVelocity.X) /
      (c.LandedDamageVelocity.Y - c.LandedDamageVelocity.X)) = t at hmin hmin1
    rcases le_total c.LandedDamage.X c.LandedDamage.Y with hxy | hxy
    · rw [min_eq_left hxy, max_eq_right hxy]
      constructor <;> nlinarith
    · rw [min_eq_right hxy, max_eq_left hxy]
      constructor <;> nlinarith

/-- Witness of C2: the sample configuration, speeds `[900, 1200]` onto damages
`[10, 100]`, at the fall speed `1000`. -/
theorem OnGroundLanded_damage_mapping_witness :
    (landingAt (-1000)).LandedDamageVelocity.X < (landingAt (-1000)).LandedDamageVelocity.Y ∧
    (landingAt (-1000)).LandedDamageVelocity.X ≤ (landingAt (-1000)).fallSpeed ∧
    (landingAt (-1000)).landedDamages = [40] := by
  have hR : (landingAt (-1000)).LandedDamageVelocity.X <
      (landingAt (-1000)).LandedDamageVelocity.Y := by
    norm_num [landingAt, sampleCharacter]
  have hv : (landingAt (-1000)).LandedDamageVelocity.X ≤ (landingAt (-1000)).fallSpeed := by
    norm_num [landingAt, sampleCharacter, ASTUBaseCharacter.fallSpeed]
  refine ⟨hR, hv, ?_⟩
  rw [(OnGroundLanded_damage_mapping (landingAt (-1000)) hR hv).1]
  norm_num [landingAt, sampleCharacter, ASTUBaseCharacter.fallSpeed]

/-- C10: with `LandedDamageVelocity.X < LandedDamageVelocity.Y` and
`LandedDamage.X ≤ LandedDamage.Y`, for two landings of the same character with
fall speeds `v1 ≤ v2` that both reach `LandedDamageVelocity.X`, the damage
`OnGroundLanded` applies at `v1` is at most the damage it applies at `v2`. -/
theorem OnGroundLanded_damage_monotone (c : ASTUBaseCharacter) (m1 m2 : FVector)
    (hR : c.LandedDamageVelocity.X < c.LandedDamageVelocity.Y)
    (hD : c.LandedDamage.X ≤ c.LandedDamage.Y)
    (h1 : c.LandedDamageVelocity.X ≤ -m1.Z) (h12 : -m1.Z ≤ -m2.Z) :
    ∃ d1 d2,
      ({ c with MovementVelocity := m1 }).landedDamages = [d1] ∧
      ({ c with MovementVelocity := m2 }).landedDamages = [d2] ∧
      d1 ≤ d2 :=
  ⟨_, _, landedDamages_of_le { c with MovementVelocity := m1 } h1,
    landedDamages_of_le { c with MovementVelocity := m2 } (le_trans h1 h12),
    GetMappedRangeValueClamped_mono _ _ _ _ hR hD h12⟩

/-- Witness of C10: the sample configuration at the fall speeds `1000` and
`1100`. -/
theorem OnGroundLanded_damage_monotone_witness :
    sampleCharacter.LandedDamageVelocity.X < sampleCharacter.LandedDamageVelocity.Y ∧
    sampleCharacter.LandedDamage.X ≤ sampleCharacter.LandedDamage.Y ∧
    sampleCharacter.LandedDamageVelocity.X ≤ (1000 : ℚ) ∧ (1000 : ℚ) ≤ 1100 ∧
    ∃ d1 d2,
      ({ sampleCharacter with MovementVelocity := ⟨0, 0, -1000⟩ }).landedDamages = [d1] ∧
      ({ sampleCharacter with MovementVelocity := ⟨0, 0, -1100⟩ }).landedDamages = [d2] ∧
      d1 ≤ d2 :=
  ⟨by norm_num [sampleCharacter], by norm_num [sampleCharacter],
    by norm_num [sampleCharacter], by norm_num,
    OnGroundLanded_damage_monotone sampleCharacter ⟨0, 0, -1000⟩ ⟨0, 0, -1100⟩
      (by norm_num [sampleCharacter]) (by norm_num [sampleCharacter])
      (by norm_num [sampleCharacter]) (by norm_num)⟩

/-! ## Movement direction -/

theorem Sign_abs (z : ℚ) (hz : z ≠ 0) : |FMath.Sign z| = 1 := by
  unfold FMath.Sign
  rcases lt_or_gt_of_ne hz with h | h
  · simp [h, not_lt.mpr (le_of_lt h)]
  · simp [h]

theorem Sign_mul_of_pos (d z : ℚ) (hd : 0 < d) : FMath.Sign (d * FMath.Sign z) = FMath.Sign z := by
  unfold FMath.Sign
  rcases lt_trichotomy z 0 with h | h | h
  · simp [h, not_lt.mpr (le_of_lt h), hd, not_lt.mpr (le_of_lt hd)]
  · simp [h]
  · simp [h, hd]

theorem GetMovementDirection_eq (E : Engine) (c : ASTUBaseCharacter)
    (hV : c.Velocity ≠ FVector.ZeroVector) :
    c.GetMovementDirection E =
      if (FVector.CrossProduct c.ActorForwardVector (c.velocityNormal E)).IsZero then
        c.angleDegrees E
      else c.angleDegrees E * FMath.Sign (c.crossZ E) := by
  have hz : c.Velocity.IsZero = false := by
    rw [← Bool.not_eq_true, FVector.IsZero_iff]
    exact hV
  simp [ASTUBaseCharacter.GetMovementDirection, hz, ASTUBaseCharacter.angleDegrees,
    ASTUBaseCharacter.crossZ, ASTUBaseCharacter.velocityNormal]

theorem crossZ_of_IsZero (E : Engine) (c : ASTUBaseCharacter)
    (h : (FVector.CrossProduct c.ActorForwardVector (c.velocityNormal E)).IsZero = true) :
    c.crossZ E = 0 := by
  rw [FVector.IsZero_iff] at h
  simp [ASTUBaseCharacter.crossZ, h, FVector.ZeroVector]

theorem sampleEngine_AngleContract : sampleEngine.AngleContract := by
  intro x
  simp only [sampleEngine, samplePi]
  split_ifs with h1 h2
  · constructor <;> norm_num
  · constructor
    · have : 0 ≤ 1 - x := by linarith
      positivity
    · have hx : -1 ≤ x := not_lt.mp h1
      have : (1 - x) * (355 / 113 / 2) * (180 / (355 / 113)) = (1 - x) * 90 := by ring
      rw [this]
      linarith
  · constructor <;> norm_num

/-- C4, amended: for every velocity that is not the zero vector, with the
angle in degrees between the forward vector and the velocity being the
arccosine of the dot product of the forward vector with the normalised
velocity: when the cross product of the forward vector with the normalised
velocity is the zero vector, `GetMovementDirection` returns that angle itself;
when the Z component of the cross product is non-zero, the result is the angle
times the sign of that Z component, so its absolute value is the angle and,
for a positive angle, its sign is the sign of that Z component. -/
theorem GetMovementDirection_angle (E : Engine) (c : ASTUBaseCharacter)
    (hE : E.AngleContract) (hV : c.Velocity ≠ FVector.ZeroVector) :
    ((FVector.CrossProduct c.ActorForwardVector (c.velocityNormal E)).IsZero = true →
      c.GetMovementDirection E = c.angleDegrees E) ∧
    (c.crossZ E ≠ 0 →
      c.GetMovementDirection E = c.angleDegrees E * FMath.Sign (c.crossZ E) ∧
      |c.GetMovementDirection E| = c.angleDegrees E ∧
      (0 < c.angleDegrees E →
        FMath.Sign (c.GetMovementDirection E) = FMath.Sign (c.crossZ E))) := by
  have hD : 0 ≤ c.angleDegrees E := (hE _).1
  constructor
  · intro h
    rw [GetMovementDirection_eq E c hV, if_pos h]
  · intro hz
    have hnz : (FVector.CrossProduct c.ActorForwardVector (c.velocityNormal E)).IsZero
        ≠ true := fun h => hz (crossZ_of_IsZero E c h)
    have heq : c.GetMovementDirection E = c.angleDegrees E * FMath.Sign (c.crossZ E) := by
      rw [GetMovementDirection_eq E c hV, if_neg hnz]
    refine ⟨heq, ?_, ?_⟩
    · rw [heq, abs_mul, Sign_abs _ hz, mul_one, abs_of_nonneg hD]
    · intro hpos
      rw [heq, Sign_mul_of_pos _ _ hpos]

/-- Witness of C4, amended: the sample character moving diagonally to its
right with the velocity `(3/5, 4/5, 0)`, in the sample engine. -/
theorem GetMovementDirection_angle_witness :
    sampleEngine.AngleContract ∧
    (movingAt ⟨3 / 5, 4 / 5, 0⟩).Velocity ≠ FVector.ZeroVector ∧
    (movingAt ⟨3 / 5, 4 / 5, 0⟩).crossZ sampleEngine ≠ 0 ∧
    |(movingAt ⟨3 / 5, 4 / 5, 0⟩).GetMovementDirection sampleEngine| =
      (movingAt ⟨3 / 5, 4 / 5, 0⟩).angleDegrees sampleEngine := by
  have hV : (movingAt ⟨3 / 5, 4 / 5, 0⟩).Velocity ≠ FVector.ZeroVector := by
    norm_num [movingAt, sampleCharacter, FVector.ZeroVector]
  have hz : (movingAt ⟨3 / 5, 4 / 5, 0⟩).crossZ sampleEngine ≠ 0 := by
    norm_num [movingAt, sampleCharacter, ASTUBaseCharacter.crossZ,
      ASTUBaseCharacter.velocityNormal, sampleEngine, FVector.CrossProduct]
  exact ⟨sampleEngine_AngleContract, hV, hz,
    ((GetMovementDirection_angle sampleEngine (movingAt ⟨3 / 5, 4 / 5, 0⟩)
      sampleEngine_AngleContract hV).2 hz).2.1⟩

/-- Counterexample to C4 as stated, for the sample character with the unit
forward vector `(1, 0, 0)`. Moving straight backwards, velocity `(-1, 0, 0)`, the
result is `180`, of sign `1`, while the Z component of the cross product is `0`,
of sign `0`. Moving straight up, velocity `(0, 0, 1)`, the cross product is
`(0, -1, 0)`, not zero but with Z component `0`, and the result is `0` while
the angle is `90` degrees. -/
theorem GetMovementDirection_angle_counterexample :
    FVector.DotProduct sampleCharacter.ActorForwardVector sampleCharacter.ActorForwardVector = 1 ∧
    ((movingAt ⟨-1, 0, 0⟩).GetMovementDirection sampleEngine = 180 ∧
      (movingAt ⟨-1, 0, 0⟩).crossZ sampleEngine = 0 ∧
      FMath.Sign ((movingAt ⟨-1, 0, 0⟩).GetMovementDirection sampleEngine) ≠
        FMath.Sign ((movingAt ⟨-1, 0, 0⟩).crossZ sampleEngine)) ∧
    ((movingAt ⟨0, 0, 1⟩).GetMovementDirection sampleEngine = 0 ∧
      (movingAt ⟨0, 0, 1⟩).angleDegrees sampleEngine = 90 ∧
      FVector.CrossProduct (movingAt ⟨0, 0, 1⟩).ActorForwardVector
        ((movingAt ⟨0, 0, 1⟩).velocityNormal sampleEngine) = ⟨0, -1, 0⟩ ∧
      |(movingAt ⟨0, 0, 1⟩).GetMovementDirection sampleEngine| ≠
        (movingAt ⟨0, 0, 1⟩).angleDegrees sampleEngine) := by
  norm_num [movingAt, sampleCharacter, sampleEngine, samplePi,
    ASTUBaseCharacter.GetMovementDirection, ASTUBaseCharacter.angleDegrees,
    ASTUBaseCharacter.crossZ, ASTUBaseCharacter.velocityNormal, FVector.IsZero,
    FVector.DotProduct, FVector.CrossProduct, FMath.Sign]

/-- C5: with an engine whose arccosine in degrees lies in `[0, 180]`, the value
returned by `GetMovementDirection` lies in `[-180, 180]` for every forward
vector and every velocity, and it is `0` when the velocity is the zero
vector. -/
theorem GetMovementDirection_range (E : Engine) (c : ASTUBaseCharacter)
    (hE : E.AngleContract) :
    -180 ≤ c.GetMovementDirection E ∧ c.GetMovementDirection E ≤ 180 ∧
    (c.Velocity = FVector.ZeroVector → c.GetMovementDirection E = 0) := by
  have h0 : c.Velocity = FVector.ZeroVector → c.GetMovementDirection E = 0 := by
    intro h
    have hz : c.Velocity.IsZero = true := (FVector.IsZero_iff _).mpr h
    simp [ASTUBaseCharacter.GetMovementDirection, hz]
  by_cases hV : c.Velocity = FVector.ZeroVector
  · rw [h0 hV]
    exact ⟨by norm_num, by norm_num, fun _ => rfl⟩
  · obtain ⟨hlo, hhi⟩ : 0 ≤ c.angleDegrees E ∧ c.angleDegrees E ≤ 180 := hE _
    rw [GetMovementDirection_eq E c hV]
    refine ⟨?_, ?_, fun h => absurd h hV⟩
    · split_ifs
      · linarith
      · unfold FMath.Sign
        split_ifs <;> linarith
    · split_ifs
      · exact hhi
      · unfold FMath.Sign
        split_ifs <;> linarith

/-- Witness of C5: the sample engine, and the sample character moving
diagonally to its left with the velocity `(3/5, -4/5, 0)`. -/
theorem GetMovementDirection_range_witness :
    sampleEngine.AngleContract ∧
    -180 ≤ (movingAt ⟨3 / 5, -4 / 5, 0⟩).GetMovementDirection sampleEngine ∧
    (movingAt ⟨3 / 5, -4 / 5, 0⟩).GetMovementDirection sampleEngine ≤ 180 :=
  ⟨sampleEngine_AngleContract,
    (GetMovementDirection_range sampleEngine (movingAt ⟨3 / 5, -4 / 5, 0⟩)
      sampleEngine_AngleContract).1,
    (GetMovementDirection_range sampleEngine (movingAt ⟨3 / 5, -4 / 5, 0⟩)
      sampleEngine_AngleContract).2.1⟩

end ShootThemUp
